import Mathlib

/-!
Verification of the data transformation and aggregation pipeline of the
Bike_Accidents_GB dashboard.  The pandas code of `src/dashboard_utils.py`,
`src/etl.py` and `src/preprocessing.py` is shallowly embedded: a table is a
list of rows over a `Val` cell type (string, integer or null), series are
lists of `Val`, and pandas operations (value_counts, groupby-size, crosstab,
merge, rolling means, str.strip/str.title) are translated as executable
functions.  Fallible pandas operations (a `df[col]` lookup that raises
`KeyError` when the column is absent) are embedded with `Except`.
-/

namespace GB

/-! ## Generic list helpers (insertion sort, first-appearance dedup) -/

/-- Insert `x` into `l` in front of the first element `y` with `le x y`. -/
def insertBy {α : Type} (le : α → α → Bool) (x : α) : List α → List α
  | [] => [x]
  | y :: ys => if le x y then x :: y :: ys else y :: insertBy le x ys

/-- Insertion sort by the boolean relation `le` (structural recursion, so
that concrete inputs evaluate inside the kernel). -/
def sortBy {α : Type} (le : α → α → Bool) : List α → List α
  | [] => []
  | x :: xs => insertBy le x (sortBy le xs)

/-- First-appearance deduplication, accumulator form. -/
def uniqueFirstAux {α : Type} [DecidableEq α] (seen : List α) : List α → List α
  | [] => []
  | x :: xs =>
      if x ∈ seen then uniqueFirstAux seen xs
      else x :: uniqueFirstAux (x :: seen) xs

/-- Distinct elements of a list in order of first appearance
(the embedding of `pandas.Series.unique`). -/
def uniqueFirst {α : Type} [DecidableEq α] (l : List α) : List α :=
  uniqueFirstAux [] l

/-! ## Cells, rows and data frames -/

/-- A cell value of a pandas table: a string, an integer, or NaN/None. -/
inductive Val where
  | str : String → Val
  | int : Int → Val
  | null : Val
deriving DecidableEq

/-- A row is an association list from column names to cell values. -/
abbrev Row := List (String × Val)

/-- Reading a cell: in pandas every row has every column of the frame,
a name that is absent is modelled as a null cell. -/
def rowGet (r : Row) (c : String) : Val :=
  (r.lookup c).getD Val.null

/-- A pandas DataFrame: a list of column names and a list of rows. -/
structure DataFrame where
  columns : List String
  rows : List Row
deriving DecidableEq

/-- The values of one column, in row order (the embedding of `df[col]`
once the column is known to exist). -/
def colVals (df : DataFrame) (c : String) : List Val :=
  df.rows.map (fun r => rowGet r c)

/-- Column projection `df[col]` as pandas performs it: raises `KeyError`
when the column is absent from the frame. -/
def getCol (df : DataFrame) (c : String) : Except String (List Val) :=
  if df.columns.contains c then Except.ok (colVals df c)
  else Except.error ("KeyError: " ++ c)

/-- A boolean total order on cells, used for the sorted outputs of
pandas groupby/crosstab keys (null, then integers, then strings). -/
def valLe (a b : Val) : Bool :=
  match a, b with
  | Val.null, _ => true
  | Val.int _, Val.null => false
  | Val.int x, Val.int y => decide (x ≤ y)
  | Val.int _, Val.str _ => true
  | Val.str _, Val.null => false
  | Val.str _, Val.int _ => false
  | Val.str x, Val.str y => decide (x < y) || decide (x = y)

/-- Lexicographic order on pairs of cells. -/
def pairLe (a b : Val × Val) : Bool :=
  if a.1 = b.1 then valLe a.2 b.2 else valLe a.1 b.1

/-- Lexicographic order on key tuples. -/
def valListLe : List Val → List Val → Bool
  | [], _ => true
  | _ :: _, [] => false
  | x :: xs, y :: ys => if x = y then valListLe xs ys else valLe x y

/-! ## value_counts and group_rare_categories (`dashboard_utils.py` 82-105) -/

/-- Embedding of `pandas.Series.value_counts`: occurrence counts of the
distinct non-null values, sorted by descending count. -/
def value_counts (s : List Val) : List (Val × Nat) :=
  let nonNull := s.filter (fun v => !(v = Val.null : Bool))
  sortBy (fun a b => decide (b.2 ≤ a.2))
    (nonNull.dedup.map (fun v => (v, nonNull.count v)))

/-- Embedding of `group_rare_categories` (`dashboard_utils.py` lines 82-105,
source defaults: `min_count = 100`, `other_label = "Other"`): every value
whose `value_counts` frequency is strictly below `min_count` is replaced by
`other_label`; null cells are outside `value_counts` and outside `isin`, so
they pass through unchanged. -/
def group_rare_categories (s : List Val) (min_count : Nat)
    (other_label : String) : List Val :=
  let rare := ((value_counts s).filter (fun p => decide (p.2 < min_count))).map
    (fun p => p.1)
  s.map (fun v => if v ∈ rare then Val.str other_label else v)

/-- The non-null projection of a series. -/
def nonNullOf (s : List Val) : List Val :=
  s.filter (fun v => !(v = Val.null : Bool))

/-! ## filter_dataframe (`dashboard_utils.py` lines 6-59) -/

/-- The year-range predicate of lines 39-42: a row passes when its year cell
is a number within the inclusive range (a null year compares as False). -/
def yearPred (lo hi : Int) (r : Row) : Bool :=
  match rowGet r "year" with
  | Val.int y => decide (lo ≤ y) && decide (y ≤ hi)
  | _ => false

/-- One step of the categorical-filter loop of lines 55-57.  Python
truthiness: `None` and the empty selection list are falsy and leave the
frame untouched; a missing column is silently skipped; otherwise rows whose
cell is `isin` the selection survive. -/
def applyCatFilter (df : DataFrame) (col : String)
    (values : Option (List String)) : DataFrame :=
  match values with
  | none => df
  | some vs =>
      if vs ≠ [] ∧ df.columns.contains col then
        ⟨df.columns, df.rows.filter (fun r =>
          match rowGet r col with
          | Val.str s => vs.contains s
          | _ => false)⟩
      else df

/-- Embedding of `filter_dataframe`: the optional year range is applied
first (raising `KeyError` when the frame has no year column), then the
seven categorical membership filters in the order of the source's
`filter_mapping` dictionary. -/
def filter_dataframe (df : DataFrame)
    (year_range : Option (Int × Int))
    (severity gender age_groups road_conditions weather_conditions
      road_type light_conditions : Option (List String)) :
    Except String DataFrame :=
  let step1 : Except String DataFrame :=
    match year_range with
    | none => Except.ok df
    | some lohi =>
        if df.columns.contains "year" then
          Except.ok ⟨df.columns, df.rows.filter (yearPred lohi.1 lohi.2)⟩
        else Except.error "KeyError: year"
  match step1 with
  | Except.error e => Except.error e
  | Except.ok df1 =>
      Except.ok
        ([("severity", severity), ("gender", gender), ("age_grp", age_groups),
          ("road_conditions", road_conditions),
          ("weather_conditions", weather_conditions),
          ("road_type", road_type),
          ("light_conditions", light_conditions)].foldl
          (fun acc p => applyCatFilter acc p.1 p.2) df1)

/-! ## crosstab, prepare_stacked_bar_data, prepare_severity_analysis -/

/-- Aligned non-null pairs of two columns (`pd.crosstab` drops a pair when
either value is missing). -/
def ctPairs (xs ys : List Val) : List (Val × Val) :=
  (xs.zip ys).filter (fun p =>
    !(p.1 = Val.null : Bool) && !(p.2 = Val.null : Bool))

/-- A two-way count table: row keys, column keys, and one row of cells per
row key aligned with the column keys. -/
structure CrossTab where
  rowKeys : List Val
  colKeys : List Val
  cells : List (List Nat)
deriving DecidableEq

/-- Embedding of `pd.crosstab(x, y)`: sorted distinct non-null keys on both
axes, co-occurrence counts as cells. -/
def crosstab (xs ys : List Val) : CrossTab :=
  let pairs := ctPairs xs ys
  let rks := sortBy valLe (uniqueFirst (pairs.map (fun p => p.1)))
  let cks := sortBy valLe (uniqueFirst (pairs.map (fun p => p.2)))
  ⟨rks, cks, rks.map (fun r => cks.map (fun c => pairs.count (r, c)))⟩

/-- Embedding of `prepare_stacked_bar_data` (`dashboard_utils.py` lines
132-148): the `df[x_column]` / `df[color_column]` projections raise
`KeyError` when absent, otherwise the crosstab of the two columns. -/
def prepare_stacked_bar_data (df : DataFrame) (x_column color_column : String) :
    Except String CrossTab :=
  match getCol df x_column with
  | Except.error e => Except.error e
  | Except.ok xs =>
      match getCol df color_column with
      | Except.error e => Except.error e
      | Except.ok ys => Except.ok (crosstab xs ys)

/-- The canonical severity column order of `dashboard_utils.py` line 200. -/
def severity_order : List String := ["Slight", "Serious", "Fatal"]

/-- A row-percentage table whose columns are severity labels. -/
structure SeverityTable where
  colLabels : List String
  rows : List (Val × List ℚ)
deriving DecidableEq

/-- Embedding of `prepare_severity_analysis` (`dashboard_utils.py` lines
188-206): when both columns are present, the crosstab of the grouping column
against severity, row-normalised (`normalize='index'`), reindexed to the
canonical columns Slight, Serious, Fatal with missing combinations filled
with 0, and scaled by 100; otherwise an empty frame.  A cell for group `g`
and label `lab` is `count(g, lab) / rowTotal(g) * 100`, where `rowTotal`
counts every non-null severity in the group, exactly as normalising before
reindexing does. -/
def prepare_severity_analysis (df : DataFrame) (by_column : String) :
    SeverityTable :=
  if df.columns.contains "severity" ∧ df.columns.contains by_column then
    let pairs := ctPairs (colVals df by_column) (colVals df "severity")
    let groups := sortBy valLe (uniqueFirst (pairs.map (fun p => p.1)))
    ⟨severity_order,
     groups.map (fun g =>
       let total := (pairs.filter (fun p => decide (p.1 = g))).length
       (g, severity_order.map (fun lab =>
         ((pairs.count (g, Val.str lab) : ℚ) / (total : ℚ)) * 100)))⟩
  else ⟨[], []⟩

/-! ## prepare_time_series_data (`dashboard_utils.py` lines 107-130) -/

/-- The key tuple of each row for a multi-column groupby. -/
def keyTuples (df : DataFrame) (cols : List String) : List (List Val) :=
  df.rows.map (fun r => cols.map (fun c => rowGet r c))

/-- Embedding of `df.groupby(cols).size()`: raises `KeyError` when a
grouping column is absent; rows with a null key are dropped, groups are
sorted by key. -/
def groupbySize (df : DataFrame) (cols : List String) :
    Except String (List (List Val × Nat)) :=
  if cols.all (fun c => df.columns.contains c) then
    let keys := (keyTuples df cols).filter (fun k => !(k.contains Val.null))
    Except.ok ((sortBy valListLe (uniqueFirst keys)).map
      (fun k => (k, keys.count k)))
  else Except.error "KeyError"

/-- The fixed weekday order of `dashboard_utils.py` line 124. -/
def day_order : List String :=
  ["Monday", "Tuesday", "Wednesday", "Thursday", "Friday", "Saturday", "Sunday"]

/-- Embedding of `prepare_time_series_data`: yearly or monthly group sizes,
or the fixed-order weekday counts (absent weekdays filled with 0 by
`fillna(0)`); every branch projects a column and raises `KeyError` when it
is absent. -/
def prepare_time_series_data (df : DataFrame) (freq : String) :
    Except String (List (List Val × Nat)) :=
  if freq = "year" then groupbySize df ["year"]
  else if freq = "month" then groupbySize df ["year", "month"]
  else if freq = "day_of_week" then
    match getCol df "day_of_week" with
    | Except.error e => Except.error e
    | Except.ok vs =>
        Except.ok (day_order.map (fun d =>
          ([Val.str d], ((value_counts vs).lookup (Val.str d)).getD 0)))
  else groupbySize df [freq]

/-! ## calculate_accident_rates (`dashboard_utils.py` lines 250-272) -/

/-- Round to the nearest integer, ties to the even integer (the rounding
used by pandas `Series.round`, on the exact rational value). -/
def roundHalfEven (x : ℚ) : ℤ :=
  if x - ((⌊x⌋ : ℤ) : ℚ) < 1/2 then ⌊x⌋
  else if 1/2 < x - ((⌊x⌋ : ℤ) : ℚ) then ⌊x⌋ + 1
  else if Even ⌊x⌋ then ⌊x⌋ else ⌊x⌋ + 1

/-- Round to one decimal place (`Series.round(1)`). -/
def round1 (x : ℚ) : ℚ := (roundHalfEven (x * 10) : ℚ) / 10

/-- The count/percentage table returned by `calculate_accident_rates`. -/
structure RateTable where
  keys : List Val
  counts : List Nat
  percentages : List ℚ
deriving DecidableEq

/-- Embedding of `calculate_accident_rates`: when the column is present,
`value_counts` of the column together with each count as a percentage of
the total, rounded to one decimal; otherwise an empty frame. -/
def calculate_accident_rates (df : DataFrame) (by_column : String) :
    RateTable :=
  if df.columns.contains by_column then
    let counts : List (Val × Nat) := value_counts (colVals df by_column)
    let total : Nat := (counts.map (fun p => p.2)).sum
    ⟨counts.map (fun p => p.1), counts.map (fun p => p.2),
     counts.map (fun p => round1 (((p.2 : ℚ)) / ((total : ℚ)) * 100))⟩
  else ⟨[], [], []⟩

/-! ## Monthly trends with rolling average (`dashboard_utils.py` 360-367) -/

/-- Centered rolling mean of window 3 (pandas
`rolling(window=3, center=True).mean()` with the default
`min_periods = window`): the mean of the three surrounding entries where
the full window fits, null at the boundaries. -/
def rollingMean3Center (l : List ℚ) : List (Option ℚ) :=
  (List.range l.length).map (fun i =>
    if 1 ≤ i ∧ i + 1 < l.length then
      some ((l.getD (i - 1) 0 + l.getD i 0 + l.getD (i + 1) 0) / 3)
    else none)

/-- Monthly accident counts: the embedding of
`df.groupby(df['date'].dt.to_period('M')).size()` — dates are month
periods numbered by `Nat`, null dates (coerced parse failures) are
dropped, groups are sorted. -/
def monthly_counts (dates : List (Option Nat)) : List (Nat × Nat) :=
  let ms := dates.filterMap id
  (sortBy (fun a b => decide (a ≤ b)) (uniqueFirst ms)).map
    (fun m => (m, ms.count m))

/-- The `monthly_trends` table of `prepare_temporal_analysis`. -/
structure MonthlyTrends where
  month : List Nat
  count : List Nat
  rolling_avg : List (Option ℚ)
deriving DecidableEq

/-- Embedding of the monthly-trends branch of `prepare_temporal_analysis`
(`dashboard_utils.py` lines 360-367): month keys, counts, and the centered
3-month rolling average of the count series. -/
def monthly_trends (dates : List (Option Nat)) : MonthlyTrends :=
  let mc := monthly_counts dates
  ⟨mc.map (fun p => p.1), mc.map (fun p => p.2),
   rollingMean3Center (mc.map (fun p => (p.2 : ℚ)))⟩

/-! ## Severity feature derivation (`preprocessing.py` lines 5-32) -/

/-- Python `str.strip()` on the character list (whitespace default). -/
def stripChars (l : List Char) : List Char :=
  ((l.dropWhile Char.isWhitespace).reverse.dropWhile Char.isWhitespace).reverse

/-- Python `str.strip()`. -/
def strStrip (s : String) : String := String.mk (stripChars s.data)

/-- Python `str.title()` on a character list: the first letter of every
alphabetic run is upper-cased, the following ones lower-cased. -/
def titleAux : Bool → List Char → List Char
  | _, [] => []
  | prevAlpha, c :: cs =>
      if c.isAlpha then
        (if prevAlpha then c.toLower else c.toUpper) :: titleAux true cs
      else c :: titleAux false cs

/-- Python `str.title()`. -/
def strTitle (s : String) : String := String.mk (titleAux false s.data)

/-- The fixed severity lookup of `preprocessing.py` line 29. -/
def severity_map : List (String × Nat) :=
  [("Slight", 1), ("Serious", 2), ("Fatal", 3)]

/-- The text normalisation applied to the severity column before the
lookup (`preprocessing.py` line 17): `astype(str)` renders a missing cell
as the string "nan", then the value is stripped and title-cased. -/
def normalizeCell (v : Option String) : String :=
  match v with
  | some s => strTitle (strStrip s)
  | none => strTitle (strStrip "nan")

/-- The derived `severity_numeric` of one row (`preprocessing.py` lines
15-17 and 29-30): normalisation followed by the fixed lookup; an unmapped
normalised value yields a null rank. -/
def severityNumeric (v : Option String) : Option Nat :=
  severity_map.lookup (normalizeCell v)

/-- The `severity_numeric` column derived by `preprocess` from the raw
severity column. -/
def preprocessSeverityNumeric (col : List (Option String)) : List (Option Nat) :=
  col.map severityNumeric

/-! ## Record merger (`etl.py` lines 10-19) -/

/-- Embedding of `pd.merge(accidents, bikers, on='Accident_Index',
how='inner')`: every pair of rows agreeing on the key produces one output
row, in left-row-major order. -/
def merge_inner {α β : Type} (A : List (String × α)) (B : List (String × β)) :
    List (String × α × β) :=
  A.flatMap (fun a =>
    (B.filter (fun b => b.1 == a.1)).map (fun b => (a.1, a.2, b.2)))

/-! ## create_sankey_data (`dashboard_utils.py` lines 488-544) -/

/-- Pairwise co-occurrence counts of two aligned columns, the embedding of
`df.groupby([c1, c2]).size()`: null pairs dropped, keys sorted. -/
def pairCounts (xs ys : List Val) : List ((Val × Val) × Nat) :=
  let pairs := ctPairs xs ys
  (sortBy pairLe (uniqueFirst pairs)).map (fun k => (k, pairs.count k))

/-- The Sankey dictionary: node labels and parallel source/target/value
edge lists. -/
structure Sankey where
  nodes : List Val
  sources : List Nat
  targets : List Nat
  values : List Nat
deriving DecidableEq

/-- The rare-grouped road column of `create_sankey_data` (line 503). -/
def sankeyRoad (df : DataFrame) : List Val :=
  group_rare_categories (colVals df "road_type") 1000 "Other"

/-- The rare-grouped weather column of `create_sankey_data` (line 504). -/
def sankeyWeather (df : DataFrame) : List Val :=
  group_rare_categories (colVals df "weather_conditions") 1000 "Other"

/-- The severity column as `create_sankey_data` reads it (line 513). -/
def sankeySev (df : DataFrame) : List Val :=
  colVals df "severity"

/-- The node list of `create_sankey_data` (line 516): the concatenation of
the first-appearance distinct values (`Series.unique`, nulls included) of
the three staged columns, with no deduplication across stages. -/
def sankeyNodes (df : DataFrame) : List Val :=
  uniqueFirst (sankeyRoad df) ++ uniqueFirst (sankeyWeather df) ++
    uniqueFirst (sankeySev df)

/-- The kept road-weather flows (lines 524-526): the co-occurrence counts
of the two adjacent stage-1/stage-2 columns, restricted to counts of at
least 100. -/
def sankeyRW (df : DataFrame) : List ((Val × Val) × Nat) :=
  (pairCounts (sankeyRoad df) (sankeyWeather df)).filter
    (fun p => decide (100 ≤ p.2))

/-- The kept weather-severity flows (lines 532-534). -/
def sankeyWS (df : DataFrame) : List ((Val × Val) × Nat) :=
  (pairCounts (sankeyWeather df) (sankeySev df)).filter
    (fun p => decide (100 ≤ p.2))

/-- Embedding of `create_sankey_data`.  When one of the three staged
columns is absent the empty dictionary (`none`) is returned.  Otherwise
the edges are the kept adjacent-stage flows, indexed by `list.index` — the
position of the FIRST occurrence of the label in the concatenated node
list.  (The three-way `flow_counts` table of source lines 507-508 is
computed and then never read by the source, so it has no counterpart
here.) -/
def create_sankey_data (df : DataFrame) : Option Sankey :=
  if ["road_type", "weather_conditions", "severity"].all
      (fun c => df.columns.contains c) then
    some ⟨sankeyNodes df,
      (sankeyRW df).map (fun p => (sankeyNodes df).indexOf p.1.1) ++
        (sankeyWS df).map (fun p => (sankeyNodes df).indexOf p.1.1),
      (sankeyRW df).map (fun p => (sankeyNodes df).indexOf p.1.2) ++
        (sankeyWS df).map (fun p => (sankeyNodes df).indexOf p.1.2),
      (sankeyRW df).map (fun p => p.2) ++ (sankeyWS df).map (fun p => p.2)⟩
  else none

/-! ## Concrete tables used by witnesses and counterexamples -/

/-- A two-row frame with a single year column. -/
def dfYears : DataFrame :=
  ⟨["year"], [[("year", Val.int 2015)], [("year", Val.int 2020)]]⟩

/-- One accident row whose road type and weather are each individually
rare (100 occurrences, below the grouping threshold 1000): both stage
columns collapse entirely to "Other". -/
def sankeyRow : Row :=
  [("road_type", Val.str "A"), ("weather_conditions", Val.str "B"),
   ("severity", Val.str "Slight")]

/-- 100 copies of `sankeyRow`. -/
def dfSankey : DataFrame :=
  ⟨["road_type", "weather_conditions", "severity"],
   List.replicate 100 sankeyRow⟩

/-- A one-row frame whose severity "Unknown" is outside the three
recognised labels. -/
def dfSevCex : DataFrame :=
  ⟨["g", "severity"], [[("g", Val.str "A"), ("severity", Val.str "Unknown")]]⟩

/-- A two-row frame with recognised severities only. -/
def dfSevW : DataFrame :=
  ⟨["g", "severity"],
   [[("g", Val.str "A"), ("severity", Val.str "Slight")],
    [("g", Val.str "A"), ("severity", Val.str "Fatal")]]⟩

/-- A two-row frame with two distinct categories in column "c". -/
def dfRates : DataFrame :=
  ⟨["c"], [[("c", Val.str "x")], [("c", Val.str "y")]]⟩

/-! # Theorems -/

/-! ## Helper lemmas on the list utilities -/

theorem insertBy_perm {α : Type} (le : α → α → Bool) (x : α) (l : List α) :
    List.Perm (insertBy le x l) (x :: l) := by
  induction l with
  | nil => simp [insertBy]
  | cons y ys ih =>
      by_cases h : le x y = true
      · simp [insertBy, h]
      · simp only [insertBy, h, if_false]
        exact List.Perm.trans (List.Perm.cons y ih) (List.Perm.swap x y ys)

theorem sortBy_perm {α : Type} (le : α → α → Bool) (l : List α) :
    List.Perm (sortBy le l) l := by
  induction l with
  | nil => simp [sortBy]
  | cons x xs ih =>
      exact List.Perm.trans (insertBy_perm le x (sortBy le xs))
        (List.Perm.cons x ih)

theorem mem_sortBy {α : Type} (le : α → α → Bool) (l : List α) (x : α) :
    x ∈ sortBy le l ↔ x ∈ l :=
  (sortBy_perm le l).mem_iff

theorem mem_uniqueFirstAux {α : Type} [DecidableEq α] (seen l : List α) (x : α) :
    x ∈ uniqueFirstAux seen l ↔ x ∈ l ∧ x ∉ seen := by
  induction l generalizing seen with
  | nil => simp [uniqueFirstAux]
  | cons y ys ih =>
      by_cases h : y ∈ seen
      · simp only [uniqueFirstAux, h, if_true, ih, List.mem_cons]
        constructor
        · rintro ⟨hx, hs⟩; exact ⟨Or.inr hx, hs⟩
        · rintro ⟨hx | hx, hs⟩
          · exact absurd (hx ▸ h) hs
          · exact ⟨hx, hs⟩
      · simp only [uniqueFirstAux, h, if_false, List.mem_cons, ih]
        constructor
        · rintro (rfl | ⟨hx, hs⟩)
          · exact ⟨Or.inl rfl, h⟩
          · exact ⟨Or.inr hx, fun hxs => hs (Or.inr hxs)⟩
        · rintro ⟨rfl | hx, hs⟩
          · exact Or.inl rfl
          · by_cases hxy : x = y
            · exact Or.inl hxy
            · refine Or.inr ⟨hx, fun hxs => ?_⟩
              rcases hxs with h1 | h1
              · exact hxy h1
              · exact hs h1

theorem mem_uniqueFirst {α : Type} [DecidableEq α] (l : List α) (x : α) :
    x ∈ uniqueFirst l ↔ x ∈ l := by
  simp [uniqueFirst, mem_uniqueFirstAux]

theorem nodup_uniqueFirstAux {α : Type} [DecidableEq α] (seen l : List α) :
    (uniqueFirstAux seen l).Nodup := by
  induction l generalizing seen with
  | nil => simp [uniqueFirstAux]
  | cons y ys ih =>
      by_cases h : y ∈ seen
      · simpa [uniqueFirstAux, h] using ih seen
      · simp only [uniqueFirstAux, h, if_false, List.nodup_cons]
        refine ⟨fun hy => ?_, ih (y :: seen)⟩
        exact ((mem_uniqueFirstAux _ _ _).mp hy).2 (List.mem_cons_self _ _)

theorem nodup_uniqueFirst {α : Type} [DecidableEq α] (l : List α) :
    (uniqueFirst l).Nodup :=
  nodup_uniqueFirstAux [] l

/-! ## Lemmas on value_counts and group_rare_categories -/

theorem mem_value_counts (s : List Val) (p : Val × Nat) :
    p ∈ value_counts s ↔ p.1 ∈ nonNullOf s ∧ p.2 = (nonNullOf s).count p.1 := by
  unfold value_counts nonNullOf
  rw [mem_sortBy, List.mem_map]
  constructor
  · rintro ⟨v, hv, rfl⟩
    exact ⟨List.mem_dedup.mp hv, rfl⟩
  · rintro ⟨hv, hc⟩
    exact ⟨p.1, List.mem_dedup.mpr hv, by rw [← hc]⟩

/-- Membership in the rare-label list of `group_rare_categories`. -/
theorem mem_rare_labels (s : List Val) (mc : Nat) (x : Val) :
    (x ∈ ((value_counts s).filter (fun p => decide (p.2 < mc))).map
      (fun p => p.1)) ↔
      x ∈ nonNullOf s ∧ (nonNullOf s).count x < mc := by
  rw [List.mem_map]
  constructor
  · rintro ⟨p, hp, rfl⟩
    have h1 := (mem_value_counts s p).mp (List.mem_filter.mp hp).1
    have h2 : p.2 < mc := by simpa using (List.mem_filter.mp hp).2
    exact ⟨h1.1, by rw [← h1.2]; exact h2⟩
  · rintro ⟨hx, hc⟩
    refine ⟨(x, (nonNullOf s).count x),
      List.mem_filter.mpr ⟨?_, by simpa using hc⟩, rfl⟩
    exact (mem_value_counts s _).mpr ⟨hx, rfl⟩

/-- Pointwise characterisation of `group_rare_categories`: a cell is turned
into the catch-all label exactly when it is non-null and its frequency among
the non-null cells is strictly below the threshold. -/
theorem group_rare_eq_map (s : List Val) (mc : Nat) (lbl : String) :
    group_rare_categories s mc lbl =
      s.map (fun v =>
        if v ≠ Val.null ∧ (nonNullOf s).count v < mc then Val.str lbl else v) := by
  unfold group_rare_categories
  refine List.map_congr_left (fun v hv => ?_)
  by_cases hn : v = Val.null
  · subst hn
    have hmem : Val.null ∉ ((value_counts s).filter
        (fun p => decide (p.2 < mc))).map (fun p => p.1) := by
      intro hmem
      have := ((mem_rare_labels s mc Val.null).mp hmem).1
      simp [nonNullOf, List.mem_filter] at this
    simp [hmem]
  · have hmemnn : v ∈ nonNullOf s := by
      simp only [nonNullOf, List.mem_filter]
      exact ⟨hv, by simpa using hn⟩
    by_cases hc : (nonNullOf s).count v < mc
    · have hmem : v ∈ ((value_counts s).filter
          (fun p => decide (p.2 < mc))).map (fun p => p.1) :=
        (mem_rare_labels s mc v).mpr ⟨hmemnn, hc⟩
      simp [hmem, hn, hc]
    · have hmem : v ∉ ((value_counts s).filter
          (fun p => decide (p.2 < mc))).map (fun p => p.1) := by
        intro hmem
        exact hc ((mem_rare_labels s mc v).mp hmem).2
      simp [hmem, hn, hc]

/-! ## C6 and C9: group_rare_categories -/

/-- C6 (amended): for every input series and every threshold,
`group_rare_categories` preserves the length, replaces exactly the non-null
cells whose frequency is strictly below `min_count` by `other_label`, leaves
cells whose frequency meets the threshold unchanged (the function is pure,
so the input series is untouched), and when every non-null value's frequency
is below the threshold every non-null cell of the output equals
`other_label` while null cells stay null. -/
theorem group_rare_categories_spec (s : List Val) (mc : Nat) (lbl : String) :
    ((group_rare_categories s mc lbl).length = s.length) ∧
    (group_rare_categories s mc lbl =
      s.map (fun v =>
        if v ≠ Val.null ∧ (nonNullOf s).count v < mc then Val.str lbl else v)) ∧
    ((∀ v ∈ nonNullOf s, (nonNullOf s).count v < mc) →
      group_rare_categories s mc lbl =
        s.map (fun v => if v = Val.null then Val.null else Val.str lbl)) := by
  refine ⟨?_, group_rare_eq_map s mc lbl, ?_⟩
  · rw [group_rare_eq_map]; exact List.length_map _ _
  · intro hall
    rw [group_rare_eq_map]
    refine List.map_congr_left (fun v hv => ?_)
    by_cases hn : v = Val.null
    · simp [hn]
    · have hmemnn : v ∈ nonNullOf s := by
        simp only [nonNullOf, List.mem_filter]
        exact ⟨hv, by simpa using hn⟩
      simp [hn, hall v hmemnn]

/-- Witness for C6 at the series ["a", null] with threshold 2: the
non-null cell is collapsed to "Other", the null cell stays null. -/
theorem group_rare_categories_spec_witness :
    group_rare_categories [Val.str "a", Val.null] 2 "Other" =
      [Val.str "Other", Val.null] := by
  have h := (group_rare_categories_spec [Val.str "a", Val.null] 2 "Other").2.2
    (by decide)
  rw [h]; decide

/-- C6 counterexample: in the series ["a", null] every value's frequency
(the single value "a" occurs once) is below the threshold 2, yet the output
column is not entirely equal to the catch-all label: the null cell stays
null, so the output differs from the all-"Other" column. -/
theorem group_rare_categories_cex :
    ((value_counts [Val.str "a", Val.null]).all
      (fun p => decide (p.2 < 2)) = true) ∧
    group_rare_categories [Val.str "a", Val.null] 2 "Other" =
      [Val.str "Other", Val.null] ∧
    [Val.str "Other", Val.null] ≠ [Val.str "Other", Val.str "Other"] := by
  refine ⟨by decide, by decide, by decide⟩

/-- C9: null cells are left null by `group_rare_categories` (whatever the
threshold), and nulls are not counted toward any value's frequency: the
value counts of a series are unchanged by an extra null cell. -/
theorem group_rare_categories_null_spec (s : List Val) (mc : Nat) (lbl : String) :
    (∀ i, i < s.length → s.getD i Val.null = Val.null →
      (group_rare_categories s mc lbl).getD i Val.null = Val.null) ∧
    (value_counts (Val.null :: s) = value_counts s) := by
  constructor
  · intro i hi hnull
    rw [group_rare_eq_map, List.getD_eq_getElem?_getD, List.getElem?_map]
    rw [List.getD_eq_getElem?_getD] at hnull
    cases hout : s[i]? with
    | none => simp
    | some v =>
        rw [hout] at hnull
        simp only [Option.getD_some] at hnull
        subst hnull
        simp
  · unfold value_counts
    simp

/-- Witness for C9 at the series [null, "b"]: the null cell at index 0
stays null. -/
theorem group_rare_categories_null_spec_witness :
    (group_rare_categories [Val.null, Val.str "b"] 3 "Other").getD 0 Val.null =
      Val.null :=
  (group_rare_categories_null_spec [Val.null, Val.str "b"] 3 "Other").1 0
    (by decide) (by decide)

/-! ## C3: filter_dataframe -/

theorem applyCatFilter_pass (df : DataFrame) (col : String)
    (values : Option (List String)) (h : values = none ∨ values = some []) :
    applyCatFilter df col values = df := by
  rcases h with rfl | rfl
  · rfl
  · simp [applyCatFilter]

/-- C3: `filter_dataframe` with every parameter absent or an empty
selection list returns the input frame row-for-row unchanged (empty or
absent predicates are pass-through, never exclude-everything), and with
only a year range it returns exactly the rows whose year lies within the
inclusive range `[lo, hi]` (the `yearPred` predicate). -/
theorem filter_dataframe_spec :
    (∀ (df : DataFrame) (sev gen age rc wc rt lc : Option (List String)),
      (sev = none ∨ sev = some []) → (gen = none ∨ gen = some []) →
      (age = none ∨ age = some []) → (rc = none ∨ rc = some []) →
      (wc = none ∨ wc = some []) → (rt = none ∨ rt = some []) →
      (lc = none ∨ lc = some []) →
      filter_dataframe df none sev gen age rc wc rt lc = Except.ok df) ∧
    (∀ (df : DataFrame) (lo hi : Int), df.columns.contains "year" = true →
      filter_dataframe df (some (lo, hi)) none none none none none none none =
        Except.ok ⟨df.columns, df.rows.filter (yearPred lo hi)⟩) := by
  constructor
  · intro df sev gen age rc wc rt lc h1 h2 h3 h4 h5 h6 h7
    unfold filter_dataframe
    simp only [List.foldl]
    rw [applyCatFilter_pass df "severity" sev h1,
      applyCatFilter_pass df "gender" gen h2,
      applyCatFilter_pass df "age_grp" age h3,
      applyCatFilter_pass df "road_conditions" rc h4,
      applyCatFilter_pass df "weather_conditions" wc h5,
      applyCatFilter_pass df "road_type" rt h6,
      applyCatFilter_pass df "light_conditions" lc h7]
  · intro df lo hi hy
    have hmem : "year" ∈ df.columns := by simpa using hy
    unfold filter_dataframe
    simp [hy, hmem, applyCatFilter]

/-- Witness for C3 at a two-row frame with years 2015 and 2020: the empty
filter is the identity, and the year range 2014-2016 keeps exactly the
2015 row. -/
theorem filter_dataframe_spec_witness :
    filter_dataframe dfYears none none none none none none none none =
      Except.ok dfYears ∧
    filter_dataframe dfYears (some (2014, 2016)) none none none none none
      none none =
      Except.ok ⟨["year"], [[("year", Val.int 2015)]]⟩ := by
  constructor
  · exact filter_dataframe_spec.1 dfYears none none none none none none none
      (Or.inl rfl) (Or.inl rfl) (Or.inl rfl) (Or.inl rfl) (Or.inl rfl)
      (Or.inl rfl) (Or.inl rfl)
  · have h := filter_dataframe_spec.2 dfYears 2014 2016 (by decide)
    rw [h]
    rfl

/-! ## C5: the record merger -/

theorem countP_eq_sum_map {α : Type} (p : α → Bool) (l : List α) :
    l.countP p = (l.map (fun x => if p x then 1 else 0)).sum := by
  induction l with
  | nil => simp
  | cons a l ih =>
      rw [List.countP_cons, List.map_cons, List.sum_cons, ih]
      omega

theorem merge_inner_length {α β : Type} (A : List (String × α))
    (B : List (String × β)) :
    (merge_inner A B).length =
      (A.map (fun a => B.countP (fun b => b.1 == a.1))).sum := by
  unfold merge_inner
  rw [List.length_flatMap]
  refine congrArg List.sum (List.map_congr_left (fun a _ => ?_))
  simp [List.countP_eq_length_filter]

/-- Double counting: summing per-left-row match counts equals summing
per-right-row match counts. -/
theorem merge_count_comm {α β : Type} (A : List (String × α))
    (B : List (String × β)) :
    (A.map (fun a => B.countP (fun b => b.1 == a.1))).sum =
      (B.map (fun b => A.countP (fun a => a.1 == b.1))).sum := by
  induction A with
  | nil => simp
  | cons a A ih =>
      rw [List.map_cons, List.sum_cons, ih]
      have h1 : ∀ b : String × β,
          (a :: A).countP (fun x => x.1 == b.1) =
            A.countP (fun x => x.1 == b.1) + (if a.1 == b.1 then 1 else 0) := by
        intro b
        rw [List.countP_cons]
      calc B.countP (fun b => b.1 == a.1) +
            (B.map (fun b => A.countP (fun x => x.1 == b.1))).sum
          = (B.map (fun b => if a.1 == b.1 then 1 else 0)).sum +
            (B.map (fun b => A.countP (fun x => x.1 == b.1))).sum := by
            rw [countP_eq_sum_map]
            congr 1
            refine congrArg List.sum (List.map_congr_left (fun b _ => ?_))
            by_cases hb : b.1 = a.1
            · simp [hb]
            · have hba : (b.1 == a.1) = false := by simpa using hb
              have hab : (a.1 == b.1) = false := by
                simpa using (fun h => hb h.symm)
              simp [hba, hab]
        _ = (B.map (fun b => A.countP (fun x => x.1 == b.1) +
              (if a.1 == b.1 then 1 else 0))).sum := by
            rw [List.sum_map_add]
            omega
        _ = (B.map (fun b => (a :: A).countP (fun x => x.1 == b.1))).sum := by
            refine congrArg List.sum (List.map_congr_left (fun b _ => ?_))
            rw [h1 b]

theorem countP_key_le_one {γ : Type} (L : List (String × γ)) (k : String)
    (h : (L.map Prod.fst).Nodup) : L.countP (fun x => x.1 == k) ≤ 1 := by
  have : L.countP (fun x => x.1 == k) = (L.map Prod.fst).count k := by
    rw [List.count, List.countP_map]
    rfl
  rw [this]
  exact List.nodup_iff_count_le_one.mp h k

/-- C5 (amended): the Record Merger is the inner join on the key column:
every key of the output occurs in both inputs, and — when the key column is
duplicate-free in both inputs, the situation the spec's 1:1 scenario
assumes — the output has at most `min |A| |B|` rows.  (With duplicated
keys the inner join multiplies the matching rows, so the unconditional
bound of the original claim fails; see the counterexample.) -/
theorem merge_inner_spec {α β : Type} (A : List (String × α))
    (B : List (String × β)) :
    ((A.map Prod.fst).Nodup → (B.map Prod.fst).Nodup →
      (merge_inner A B).length ≤ min A.length B.length) ∧
    (∀ k ∈ (merge_inner A B).map Prod.fst,
      k ∈ A.map Prod.fst ∧ k ∈ B.map Prod.fst) := by
  constructor
  · intro hA hB
    have hle1 : (merge_inner A B).length ≤ A.length := by
      rw [merge_inner_length]
      have := List.sum_le_card_nsmul
        (A.map (fun a => B.countP (fun b => b.1 == a.1))) 1
        (by
          intro x hx
          rcases List.mem_map.mp hx with ⟨a, _, rfl⟩
          exact countP_key_le_one B a.1 hB)
      simpa using this
    have hle2 : (merge_inner A B).length ≤ B.length := by
      rw [merge_inner_length, merge_count_comm]
      have := List.sum_le_card_nsmul
        (B.map (fun b => A.countP (fun a => a.1 == b.1))) 1
        (by
          intro x hx
          rcases List.mem_map.mp hx with ⟨b, _, rfl⟩
          have : A.countP (fun a => a.1 == b.1) ≤ 1 :=
            countP_key_le_one A b.1 hA
          exact this)
      simpa using this
    exact le_min hle1 hle2
  · intro k hk
    rcases List.mem_map.mp hk with ⟨row, hrow, rfl⟩
    rcases List.mem_flatMap.mp hrow with ⟨a, ha, hmem⟩
    rcases List.mem_map.mp hmem with ⟨b, hb, rfl⟩
    have hbB : b ∈ B := (List.mem_filter.mp hb).1
    have hkey : b.1 = a.1 := by simpa using (List.mem_filter.mp hb).2
    constructor
    · exact List.mem_map.mpr ⟨a, ha, rfl⟩
    · exact List.mem_map.mpr ⟨b, hbB, hkey⟩

/-- Witness for C5: two frames with duplicate-free keys sharing one key
produce one merged row (at most `min 2 2`), and the surviving key "a" is a
key of both inputs. -/
theorem merge_inner_spec_witness :
    (merge_inner [("a", (0 : Nat)), ("b", 1)]
      [("a", (5 : Nat)), ("c", 6)]).length ≤ min 2 2 ∧
    ("a" ∈ ([("a", (0 : Nat)), ("b", 1)].map Prod.fst) ∧
      "a" ∈ ([("a", (5 : Nat)), ("c", 6)].map Prod.fst)) := by
  constructor
  · have h := (merge_inner_spec [("a", (0 : Nat)), ("b", 1)]
      [("a", (5 : Nat)), ("c", 6)]).1 (by decide) (by decide)
    simpa using h
  · exact (merge_inner_spec [("a", (0 : Nat)), ("b", 1)]
      [("a", (5 : Nat)), ("c", 6)]).2 "a" (by decide)

/-- C5 counterexample: one left row and two right rows share the key "k";
the inner merge multiplies them into 2 output rows, exceeding
`min |A| |B| = 1`, so the unconditional row-count bound of the claim is
false. -/
theorem merge_inner_cex :
    (merge_inner [("k", (0 : Nat))] [("k", (1 : Nat)), ("k", 2)]).length = 2 ∧
    min (List.length [("k", (0 : Nat))])
      (List.length [("k", (1 : Nat)), ("k", 2)]) = 1 ∧
    ¬ (2 ≤ 1) := by
  refine ⟨by decide, by decide, by decide⟩

/-! ## C8: severity rank derivation -/

/-- C8 (amended): the severity rank is derived by the fixed lookup
Slight 1, Serious 2, Fatal 3 — a strictly monotonic encoding — applied to
the severity text after the whitespace-stripping and title-casing of the
text-normalisation step; every row whose severity normalises to a string
outside the three labels (in particular a missing severity, rendered
"Nan") gets a null rank — never an exception, never a default rank — and
no row is dropped (the derived column has the length of the input). -/
theorem severity_numeric_spec (col : List (Option String)) :
    ((preprocessSeverityNumeric col).length = col.length) ∧
    (severityNumeric (some "Slight") = some 1 ∧
      severityNumeric (some "Serious") = some 2 ∧
      severityNumeric (some "Fatal") = some 3 ∧ 1 < 2 ∧ 2 < 3) ∧
    (∀ v : Option String, normalizeCell v ∉ severity_map.map Prod.fst →
      severityNumeric v = none) ∧
    (severityNumeric none = none) := by
  refine ⟨List.length_map _ _, ⟨by decide, by decide, by decide, by decide,
    by decide⟩, ?_, by decide⟩
  intro v h
  simp only [severity_map, List.map_cons, List.map_nil, List.mem_cons,
    List.not_mem_nil] at h
  push_neg at h
  have h1 : (normalizeCell v == "Slight") = false := by simpa using h.1
  have h2 : (normalizeCell v == "Serious") = false := by simpa using h.2.1
  have h3 : (normalizeCell v == "Fatal") = false := by simpa using h.2.2.1
  simp [severityNumeric, severity_map, List.lookup, h1, h2, h3]

/-- Witness for C8: the raw severity "Unknown" normalises to itself, is
outside the three labels, and gets a null rank. -/
theorem severity_numeric_spec_witness :
    severityNumeric (some "Unknown") = none :=
  (severity_numeric_spec []).2.2.1 (some "Unknown") (by decide)

/-- C8 counterexample: the raw severity text " fatal " is not one of the
three labels Slight, Serious, Fatal, yet its derived rank is 3 rather than
null — the code strips and title-cases the text before the lookup, so the
claim as stated over the raw severity text is false. -/
theorem severity_numeric_cex :
    severityNumeric (some " fatal ") = some 3 ∧
    (" fatal " ∉ ["Slight", "Serious", "Fatal"]) := by
  refine ⟨by decide, by decide⟩

/-! ## C7: the centered 3-month rolling average -/

theorem rollingMean3Center_length (l : List ℚ) :
    (rollingMean3Center l).length = l.length := by
  simp [rollingMean3Center]

theorem rollingMean3Center_getD (l : List ℚ) (i : Nat) (hi : i < l.length) :
    (rollingMean3Center l).getD i none =
      if 1 ≤ i ∧ i + 1 < l.length then
        some ((l.getD (i - 1) 0 + l.getD i 0 + l.getD (i + 1) 0) / 3)
      else none := by
  unfold rollingMean3Center
  rw [List.getD_eq_getElem?_getD, List.getElem?_map, List.getElem?_range hi]
  simp

/-- C7: the monthly-trends table carries a centered 3-month moving average
of the monthly count series: the rolling column has the length of the
count series (in particular, equal lengths for a 12-month series); for a
12-month series the first and the last rolling entries are null, never a
partial-window value; and at every interior position the rolling entry is
exactly the arithmetic mean of the three surrounding monthly counts. -/
theorem monthly_trends_rolling_spec (dates : List (Option Nat)) :
    ((monthly_trends dates).rolling_avg.length =
      (monthly_trends dates).count.length) ∧
    ((monthly_trends dates).count.length = 12 →
      (monthly_trends dates).rolling_avg.getD 0 none = none ∧
      (monthly_trends dates).rolling_avg.getD 11 none = none) ∧
    (∀ i, 1 ≤ i → i + 1 < (monthly_trends dates).count.length →
      (monthly_trends dates).rolling_avg.getD i none =
        some (((((monthly_trends dates).count.getD (i - 1) 0 : ℚ)) +
          (((monthly_trends dates).count.getD i 0 : ℚ)) +
          (((monthly_trends dates).count.getD (i + 1) 0 : ℚ))) / 3)) := by
  have hmap : (monthly_counts dates).map (fun p => ((p.2 : ℚ))) =
      ((monthly_counts dates).map (fun p => p.2)).map
        (fun n : Nat => ((n : ℚ))) := by
    rw [List.map_map]
    rfl
  have hclen : (monthly_trends dates).count.length =
      (monthly_counts dates).length := by
    simp [monthly_trends]
  have hrlen : (monthly_trends dates).rolling_avg.length =
      (monthly_counts dates).length := by
    simp [monthly_trends, rollingMean3Center_length]
  have hgetD : ∀ j, ((monthly_counts dates).map (fun p => ((p.2 : ℚ)))).getD j 0 =
      (((monthly_trends dates).count.getD j 0 : ℚ)) := by
    intro j
    rw [hmap]
    have := @List.getD_map Nat ℚ ((monthly_counts dates).map (fun p => p.2)) 0
      j (fun n : Nat => ((n : ℚ)))
    simpa [monthly_trends] using this
  refine ⟨by rw [hclen, hrlen], ?_, ?_⟩
  · intro h12
    have hlen : ((monthly_counts dates).map (fun p => ((p.2 : ℚ)))).length = 12 := by
      rw [List.length_map, ← hclen, h12]
    constructor
    · have h := rollingMean3Center_getD
        ((monthly_counts dates).map (fun p => ((p.2 : ℚ)))) 0 (by omega)
      rw [hlen] at h
      simpa [monthly_trends] using h
    · have h := rollingMean3Center_getD
        ((monthly_counts dates).map (fun p => ((p.2 : ℚ)))) 11 (by omega)
      rw [hlen] at h
      simp only [show ¬ (1 ≤ 11 ∧ 11 + 1 < 12) by omega, if_false] at h
      simpa [monthly_trends] using h
  · intro i h1 h2
    have hlen : ((monthly_counts dates).map (fun p => ((p.2 : ℚ)))).length =
        (monthly_trends dates).count.length := by
      rw [List.length_map, hclen]
    have h := rollingMean3Center_getD
      ((monthly_counts dates).map (fun p => ((p.2 : ℚ)))) i (by omega)
    rw [hlen] at h
    simp only [show (1 ≤ i ∧ i + 1 < (monthly_trends dates).count.length) from
      ⟨h1, h2⟩, and_self, if_true, if_pos (⟨h1, h2⟩ :
        1 ≤ i ∧ i + 1 < (monthly_trends dates).count.length)] at h
    rw [hgetD (i - 1), hgetD i, hgetD (i + 1)] at h
    simpa [monthly_trends] using h

/-- Witness for C7 at twelve distinct months, one accident in each: the
rolling column is null at the first position and equals 1 (the exact mean
of three unit counts) at the second. -/
theorem monthly_trends_rolling_spec_witness :
    (monthly_trends ((List.range 12).map some)).rolling_avg.getD 0 none =
      none ∧
    (monthly_trends ((List.range 12).map some)).rolling_avg.getD 1 none =
      some 1 := by
  constructor
  · exact ((monthly_trends_rolling_spec ((List.range 12).map some)).2.1
      (by decide)).1
  · have h := (monthly_trends_rolling_spec ((List.range 12).map some)).2.2 1
      (by decide) (by decide)
    have hc0 : (monthly_trends ((List.range 12).map some)).count.getD (1 - 1) 0
      = 1 := by decide
    have hc1 : (monthly_trends ((List.range 12).map some)).count.getD 1 0
      = 1 := by decide
    have hc2 : (monthly_trends ((List.range 12).map some)).count.getD (1 + 1) 0
      = 1 := by decide
    rw [h, hc0, hc1, hc2]
    norm_num

/-! ## C4: the severity cross-tabulation -/

/-- Partition of a count over three mutually distinct values that exhaust
the list. -/
theorem countP_three_partition (l : List Val) (a b c : Val)
    (hab : a ≠ b) (hac : a ≠ c) (hbc : b ≠ c)
    (hall : ∀ v ∈ l, v = a ∨ v = b ∨ v = c) :
    l.countP (fun v => decide (v = a)) + l.countP (fun v => decide (v = b)) +
      l.countP (fun v => decide (v = c)) = l.length := by
  induction l with
  | nil => simp
  | cons v l ih =>
      have hv := hall v (List.mem_cons_self _ _)
      have ihl := ih (fun w hw => hall w (List.mem_cons_of_mem _ hw))
      rcases hv with rfl | rfl | rfl
      · simp only [List.countP_cons, List.length_cons]
        simp [hab, hac]
        omega
      · simp only [List.countP_cons, List.length_cons]
        simp [Ne.symm hab, hbc]
        omega
      · simp only [List.countP_cons, List.length_cons]
        simp [Ne.symm hac, Ne.symm hbc]
        omega

/-- Counting a concrete pair equals counting the second component among the
rows whose first component matches. -/
theorem count_pair_eq_countP (P : List (Val × Val)) (g x : Val) :
    P.count (g, x) =
      (P.filter (fun p => decide (p.1 = g))).countP
        (fun p => decide (p.2 = x)) := by
  rw [List.count_eq_countP, List.countP_filter]
  refine List.countP_congr (fun p _ => ?_)
  rcases p with ⟨p1, p2⟩
  constructor
  · intro h
    have : (p1, p2) = (g, x) := by simpa using h
    simp [Prod.ext_iff] at this
    simp [this.1, this.2]
  · intro h
    simp only [Bool.and_eq_true, decide_eq_true_eq] at h
    simp [Prod.ext_iff, h.1, h.2]

/-- C4 (amended): for every table in which the severity column and the
grouping column are present, `prepare_severity_analysis` returns a table
whose columns are exactly Slight, Serious, Fatal in that order regardless
of which severities occur; and when every non-null severity value of the
table is one of those three labels, every group row (each grouping value
with at least one row) carries three percentages summing exactly to 100.
(When a severity value outside the three labels occurs, the normalising
row total still counts it but the reindexed columns drop it, so a row sum
can fall below 100; see the counterexample.) -/
theorem prepare_severity_analysis_spec (df : DataFrame) (by_column : String) :
    ((df.columns.contains "severity" ∧ df.columns.contains by_column) →
      (prepare_severity_analysis df by_column).colLabels = severity_order) ∧
    ((df.columns.contains "severity" ∧ df.columns.contains by_column) →
      (∀ v ∈ colVals df "severity", v ≠ Val.null →
        v = Val.str "Slight" ∨ v = Val.str "Serious" ∨ v = Val.str "Fatal") →
      ∀ row ∈ (prepare_severity_analysis df by_column).rows,
        row.2.length = 3 ∧ row.2.sum = 100) := by
  constructor
  · intro hc
    have h1 : "severity" ∈ df.columns := by simpa using hc.1
    have h2 : by_column ∈ df.columns := by simpa using hc.2
    simp [prepare_severity_analysis, h1, h2]
  · intro hc hsev row hrow
    unfold prepare_severity_analysis at hrow
    rw [if_pos hc] at hrow
    rcases List.mem_map.mp hrow with ⟨g, hg, rfl⟩
    set pairs := ctPairs (colVals df by_column) (colVals df "severity") with hpairs
    set L := pairs.filter (fun p => decide (p.1 = g)) with hL
    refine ⟨by simp [severity_order], ?_⟩
    have hmemsecond : ∀ p ∈ L, p.2 = Val.str "Slight" ∨
        p.2 = Val.str "Serious" ∨ p.2 = Val.str "Fatal" := by
      intro p hp
      have hpp : p ∈ pairs := (List.mem_filter.mp hp).1
      have hzip := List.mem_filter.mp hpp
      have hmem2 : p.2 ∈ colVals df "severity" := by
        rcases p with ⟨p1, p2⟩
        exact (List.of_mem_zip hzip.1).2
      have hnn : p.2 ≠ Val.null := by
        have := hzip.2
        simp only [Bool.and_eq_true, Bool.not_eq_true'] at this
        intro hnull
        have h2 := this.2
        rw [hnull] at h2
        simp at h2
      exact hsev p.2 hmem2 hnn
    have htpos : 0 < L.length := by
      rw [List.length_pos]
      have hgm : g ∈ pairs.map (fun p => p.1) := by
        have := (mem_sortBy _ _ g).mp hg
        exact (mem_uniqueFirst _ g).mp this
      rcases List.mem_map.mp hgm with ⟨p, hp, rfl⟩
      intro hnil
      have : p ∈ L := List.mem_filter.mpr ⟨hp, by simp⟩
      rw [hnil] at this
      exact List.not_mem_nil p this
    have hpart : L.countP (fun p => decide (p.2 = Val.str "Slight")) +
        L.countP (fun p => decide (p.2 = Val.str "Serious")) +
        L.countP (fun p => decide (p.2 = Val.str "Fatal")) = L.length := by
      have hmap : ∀ x : Val, L.countP (fun p => decide (p.2 = x)) =
          (L.map (fun p => p.2)).countP (fun v => decide (v = x)) := by
        intro x
        rw [List.countP_map]
        rfl
      rw [hmap, hmap, hmap]
      have := countP_three_partition (L.map (fun p => p.2))
        (Val.str "Slight") (Val.str "Serious") (Val.str "Fatal")
        (by simp) (by simp) (by simp)
        (by
          intro v hv
          rcases List.mem_map.mp hv with ⟨p, hp, rfl⟩
          exact hmemsecond p hp)
      rw [this]
      simp
    have hcount : ∀ x : Val, pairs.count (g, x) =
        L.countP (fun p => decide (p.2 = x)) := by
      intro x
      rw [hL]
      exact count_pair_eq_countP pairs g x
    have htne : ((L.length : ℚ)) ≠ 0 := by
      exact_mod_cast Nat.pos_iff_ne_zero.mp htpos
    set c1 := L.countP (fun p => decide (p.2 = Val.str "Slight")) with hc1
    set c2 := L.countP (fun p => decide (p.2 = Val.str "Serious")) with hc2
    set c3 := L.countP (fun p => decide (p.2 = Val.str "Fatal")) with hc3
    have hsum3 : ((c1 : ℚ)) + ((c2 : ℚ)) + ((c3 : ℚ)) = ((L.length : ℚ)) := by
      exact_mod_cast hpart
    simp only [severity_order, List.map_cons, List.map_nil, List.sum_cons,
      List.sum_nil]
    rw [hcount (Val.str "Slight"), hcount (Val.str "Serious"),
      hcount (Val.str "Fatal"), ← hc1, ← hc2, ← hc3]
    have expand : ((c1 : ℚ)) / ((L.length : ℚ)) * 100 +
        (((c2 : ℚ)) / ((L.length : ℚ)) * 100 +
          (((c3 : ℚ)) / ((L.length : ℚ)) * 100 + 0)) =
        (((c1 : ℚ)) + ((c2 : ℚ)) + ((c3 : ℚ))) / ((L.length : ℚ)) * 100 := by
      ring
    rw [expand, hsum3, div_self htne]
    ring

/-- Witness for C4 at a two-row frame (group "A", severities Slight and
Fatal): the columns are the canonical three and every group row sums to
100. -/
theorem prepare_severity_analysis_spec_witness :
    (prepare_severity_analysis dfSevW "g").colLabels = severity_order ∧
    (∀ row ∈ (prepare_severity_analysis dfSevW "g").rows,
      row.2.length = 3 ∧ row.2.sum = 100) := by
  constructor
  · exact (prepare_severity_analysis_spec dfSevW "g").1 (by decide)
  · exact (prepare_severity_analysis_spec dfSevW "g").2 (by decide) (by decide)

/-- C4 counterexample: a single row with the unrecognised severity
"Unknown" produces a group row whose three percentages are 0, 0, 0 — the
row total counts the unrecognised label but the reindexed columns drop it,
so the row sums to 0, not 100. -/
theorem prepare_severity_analysis_cex :
    ((prepare_severity_analysis dfSevCex "g").rows.map (fun r => r.2.sum))
      = [0] ∧ ((0 : ℚ)) ≠ 100 := by
  constructor
  · norm_num [prepare_severity_analysis, dfSevCex, ctPairs, colVals, rowGet,
      severity_order, sortBy, insertBy, uniqueFirst, uniqueFirstAux,
      List.count_cons, List.count_nil, List.filter_cons, List.filter_nil,
      List.lookup, beq_iff_eq, Option.getD_some,
      show (("severity" == "g") = false) from rfl,
      show (("severity" == "severity") = true) from rfl,
      show (¬ Val.str "A" = Val.null ∧ ¬ Val.str "Unknown" = Val.null) from
        (by simp),
      show ¬ ("Unknown" = "Slight") from (by decide),
      show ¬ ("Unknown" = "Serious") from (by decide),
      show ¬ ("Unknown" = "Fatal") from (by decide)]
  · norm_num

/-! ## C10: calculate_accident_rates -/

/-- The counts listed by `value_counts` sum to the number of non-null
cells. -/
theorem value_counts_sum (s : List Val) :
    ((value_counts s).map (fun p => p.2)).sum = (nonNullOf s).length := by
  unfold value_counts nonNullOf
  have hperm := (sortBy_perm (fun a b => decide (b.2 ≤ a.2))
    ((s.filter (fun v => !(v = Val.null : Bool))).dedup.map
      (fun v => (v, (s.filter (fun v => !(v = Val.null : Bool))).count v)))).map
    (fun p : Val × Nat => p.2)
  rw [hperm.sum_eq, List.map_map]
  exact List.sum_map_count_dedup_eq_length _

/-- Half-even rounding moves a rational by at most one half. -/
theorem abs_roundHalfEven_sub (x : ℚ) :
    |((roundHalfEven x : ℤ) : ℚ) - x| ≤ 1/2 := by
  have h0 : ((⌊x⌋ : ℤ) : ℚ) ≤ x := Int.floor_le x
  have h1 : x < ((⌊x⌋ : ℤ) : ℚ) + 1 := Int.lt_floor_add_one x
  unfold roundHalfEven
  split_ifs with hlt hgt hev
  · rw [abs_le]
    constructor <;> linarith
  · have h2 := not_lt.mp hlt
    rw [abs_le]
    constructor <;> push_cast <;> linarith
  · have h2 := not_lt.mp hlt
    have h3 := not_lt.mp hgt
    rw [abs_le]
    constructor <;> linarith
  · have h2 := not_lt.mp hlt
    have h3 := not_lt.mp hgt
    rw [abs_le]
    constructor <;> push_cast <;> linarith

/-- Rounding to one decimal moves a rational by at most one twentieth. -/
theorem abs_round1_sub (x : ℚ) : |round1 x - x| ≤ 1/20 := by
  unfold round1
  have h := abs_roundHalfEven_sub (x * 10)
  have heq : ((roundHalfEven (x * 10) : ℤ) : ℚ) / 10 - x =
      (((roundHalfEven (x * 10) : ℤ) : ℚ) - x * 10) / 10 := by ring
  rw [heq, abs_div]
  have h10 : |(10 : ℚ)| = 10 := by norm_num
  rw [h10]
  linarith

/-- The total rounding error over a list is at most length/20. -/
theorem abs_sum_round1_sub (l : List ℚ) :
    |(l.map round1).sum - l.sum| ≤ ((l.length : ℚ)) / 20 := by
  induction l with
  | nil => simp
  | cons x l ih =>
      simp only [List.map_cons, List.sum_cons, List.length_cons]
      have hx := abs_round1_sub x
      have hsplit : round1 x + (l.map round1).sum - (x + l.sum) =
          (round1 x - x) + ((l.map round1).sum - l.sum) := by ring
      rw [hsplit]
      have habs := abs_add (round1 x - x) ((l.map round1).sum - l.sum)
      have hcast : (((l.length + 1 : Nat)) : ℚ) = ((l.length : ℚ)) + 1 := by
        push_cast
        ring
      rw [hcast]
      have := add_le_add hx ih
      linarith

/-- Summing `c / T * 100` over a list of counts. -/
theorem sum_map_div_mul (cs : List Nat) (T : ℚ) :
    (cs.map (fun c : Nat => ((c : ℚ)) / T * 100)).sum =
      ((cs.sum : ℚ)) / T * 100 := by
  induction cs with
  | nil => simp
  | cons c cs ih =>
      simp only [List.map_cons, List.sum_cons, ih]
      push_cast
      ring

/-- C10: for every table whose chosen column is present with at least one
non-null cell, `calculate_accident_rates` counts only the non-null cells —
the count column sums to the number of non-null rows of the column — and
the percentage column sums to 100 up to the rounding error, which is at
most one twentieth per listed category. -/
theorem calculate_accident_rates_spec (df : DataFrame) (by_column : String)
    (hcol : df.columns.contains by_column = true)
    (hnn : nonNullOf (colVals df by_column) ≠ []) :
    ((calculate_accident_rates df by_column).counts.sum =
      (nonNullOf (colVals df by_column)).length) ∧
    |(calculate_accident_rates df by_column).percentages.sum - 100| ≤
      (((calculate_accident_rates df by_column).keys.length : ℚ)) / 20 := by
  unfold calculate_accident_rates
  rw [if_pos hcol]
  simp only []
  constructor
  · exact value_counts_sum (colVals df by_column)
  · set s := colVals df by_column with hs
    set vc := value_counts s with hvc
    set T := (vc.map (fun p => p.2)).sum with hT
    have hTlen : T = (nonNullOf s).length := value_counts_sum s
    have hTpos : 0 < T := by
      rw [hTlen]
      exact List.length_pos.mpr hnn
    have hTne : ((T : ℚ)) ≠ 0 := by
      exact_mod_cast Nat.pos_iff_ne_zero.mp hTpos
    have hmm : vc.map (fun p => round1 (((p.2 : ℚ)) / ((T : ℚ)) * 100)) =
        (vc.map (fun p => p.2)).map
          (fun c : Nat => round1 (((c : ℚ)) / ((T : ℚ)) * 100)) := by
      rw [List.map_map]
      rfl
    have hunrounded :
        ((vc.map (fun p => p.2)).map
          (fun c : Nat => ((c : ℚ)) / ((T : ℚ)) * 100)).sum = 100 := by
      rw [sum_map_div_mul (vc.map (fun p => p.2)) ((T : ℚ))]
      rw [← hT, div_self hTne]
      ring
    have hself :
        ((vc.map (fun p => p.2)).map
          (fun c : Nat => round1 (((c : ℚ)) / ((T : ℚ)) * 100))) =
        (((vc.map (fun p => p.2)).map
          (fun c : Nat => ((c : ℚ)) / ((T : ℚ)) * 100)).map round1) := by
      simp only [List.map_map]
      rfl
    rw [hmm, hself]
    have hbound := abs_sum_round1_sub
      ((vc.map (fun p => p.2)).map (fun c : Nat => ((c : ℚ)) / ((T : ℚ)) * 100))
    rw [hunrounded] at hbound
    have hlen : (((vc.map (fun p => p.2)).map
        (fun c : Nat => ((c : ℚ)) / ((T : ℚ)) * 100)).length) =
        (vc.map (fun p => p.1)).length := by
      simp
    rw [hlen] at hbound
    exact hbound

/-- Witness for C10 at a two-row frame with categories "x" and "y": the
counts sum to 2 (both cells are non-null) and the rounded percentages sum
to 100 up to the rounding bound. -/
theorem calculate_accident_rates_spec_witness :
    (calculate_accident_rates dfRates "c").counts.sum = 2 ∧
    |(calculate_accident_rates dfRates "c").percentages.sum - 100| ≤
      (((calculate_accident_rates dfRates "c").keys.length : ℚ)) / 20 := by
  constructor
  · exact ((calculate_accident_rates_spec dfRates "c" (by decide)
      (by decide)).1).trans (by decide)
  · exact (calculate_accident_rates_spec dfRates "c" (by decide)
      (by decide)).2

/-! ## C2: behaviour of the aggregation functions on a missing column -/

/-- C2 (amended): the guarded aggregation functions return an empty result
when a required column is absent — `create_sankey_data` the empty
dictionary, `calculate_accident_rates` and `prepare_severity_analysis` an
empty frame — but `prepare_time_series_data` and `prepare_stacked_bar_data`
do not: their unguarded column projections raise `KeyError` when the
grouping column is absent. -/
theorem aggregation_missing_column_spec :
    (∀ df : DataFrame,
      (["road_type", "weather_conditions", "severity"].all
        (fun c => df.columns.contains c)) = false →
      create_sankey_data df = none) ∧
    (∀ (df : DataFrame) (by_column : String),
      df.columns.contains by_column = false →
      calculate_accident_rates df by_column = ⟨[], [], []⟩) ∧
    (∀ (df : DataFrame) (by_column : String),
      df.columns.contains "severity" = false ∨
        df.columns.contains by_column = false →
      prepare_severity_analysis df by_column = ⟨[], []⟩) ∧
    (∀ df : DataFrame, df.columns.contains "year" = false →
      prepare_time_series_data df "year" = Except.error "KeyError") ∧
    (∀ (df : DataFrame) (x c : String), df.columns.contains x = false →
      prepare_stacked_bar_data df x c = Except.error ("KeyError: " ++ x)) := by
  refine ⟨?_, ?_, ?_, ?_, ?_⟩
  · intro df h
    have h3 : ¬ ("road_type" ∈ df.columns ∧ "weather_conditions" ∈ df.columns
        ∧ "severity" ∈ df.columns) := by
      intro hmem
      have : (["road_type", "weather_conditions", "severity"].all
          (fun c => df.columns.contains c)) = true := by
        simp [List.all_eq_true]
        exact ⟨by simpa using hmem.1, by simpa using hmem.2.1,
          by simpa using hmem.2.2⟩
      rw [this] at h
      exact Bool.noConfusion h
    simp only [create_sankey_data]
    rw [if_neg (by simpa using h)]
  · intro df by_column h
    have h' : by_column ∉ df.columns := by simpa using h
    simp [calculate_accident_rates, h']
  · intro df by_column h
    have h' : ¬ (df.columns.contains "severity" = true ∧
        df.columns.contains by_column = true) := by
      rcases h with h | h
      · intro hc
        rw [h] at hc
        exact Bool.noConfusion hc.1
      · intro hc
        rw [h] at hc
        exact Bool.noConfusion hc.2
    simp only [prepare_severity_analysis]
    rw [if_neg h']
  · intro df h
    have h' : "year" ∉ df.columns := by simpa using h
    simp [prepare_time_series_data, groupbySize, h']
  · intro df x c h
    have h' : x ∉ df.columns := by simpa using h
    simp [prepare_stacked_bar_data, getCol, h']

/-- Witness for C2 on the empty frame: the guarded functions return their
empty results, the two unguarded ones return the `KeyError` error value. -/
theorem aggregation_missing_column_spec_witness :
    create_sankey_data ⟨[], []⟩ = none ∧
    calculate_accident_rates ⟨[], []⟩ "c" = ⟨[], [], []⟩ ∧
    prepare_severity_analysis ⟨[], []⟩ "g" = ⟨[], []⟩ ∧
    prepare_time_series_data ⟨[], []⟩ "year" = Except.error "KeyError" ∧
    prepare_stacked_bar_data ⟨[], []⟩ "a" "b" =
      Except.error ("KeyError: " ++ "a") := by
  refine ⟨?_, ?_, ?_, ?_, ?_⟩
  · exact aggregation_missing_column_spec.1 ⟨[], []⟩ (by decide)
  · exact aggregation_missing_column_spec.2.1 ⟨[], []⟩ "c" (by decide)
  · exact aggregation_missing_column_spec.2.2.1 ⟨[], []⟩ "g"
      (Or.inl (by decide))
  · exact aggregation_missing_column_spec.2.2.2.1 ⟨[], []⟩ (by decide)
  · exact aggregation_missing_column_spec.2.2.2.2 ⟨[], []⟩ "a" "b" (by decide)

/-- C2 counterexample: on a frame without a year column,
`prepare_time_series_data` raises `KeyError` — an exception, not the empty
result the claim promises (and `prepare_stacked_bar_data` likewise). -/
theorem aggregation_missing_column_cex :
    prepare_time_series_data ⟨[], []⟩ "year" = Except.error "KeyError" ∧
    (Except.error "KeyError" :
      Except String (List (List Val × Nat))).isOk = false ∧
    prepare_stacked_bar_data ⟨[], []⟩ "a" "b" =
      Except.error ("KeyError: " ++ "a") ∧
    (Except.error ("KeyError: " ++ "a") :
      Except String CrossTab).isOk = false := by
  refine ⟨rfl, rfl, rfl, rfl⟩

/-! ## C1: the Sankey flow-graph builder -/

/-- `List.indexOf` returns the position of the FIRST occurrence: the
element is found there and every earlier position holds a different
element. -/
theorem indexOf_spec {α : Type} [DecidableEq α] (l : List α) (a : α)
    (h : a ∈ l) :
    l.indexOf a < l.length ∧ l[l.indexOf a]? = some a ∧
      ∀ j, j < l.indexOf a → l[j]? ≠ some a := by
  induction l with
  | nil => cases h
  | cons x xs ih =>
      by_cases hx : x = a
      · subst hx
        refine ⟨?_, ?_, ?_⟩
        · simp [List.indexOf_cons]
        · simp [List.indexOf_cons]
        · intro j hj
          simp [List.indexOf_cons] at hj
      · have hmem : a ∈ xs := by
          rcases List.mem_cons.mp h with h1 | h1
          · exact absurd h1.symm hx
          · exact h1
        have ihh := ih hmem
        have hbeq : (x == a) = false := by simpa using hx
        have hidx : (x :: xs).indexOf a = xs.indexOf a + 1 := by
          rw [List.indexOf_cons, hbeq]
          rfl
        refine ⟨?_, ?_, ?_⟩
        · rw [hidx]
          simpa using Nat.succ_lt_succ ihh.1
        · rw [hidx]
          simpa using ihh.2.1
        · intro j hj
          rw [hidx] at hj
          cases j with
          | zero =>
              simp only [List.getElem?_cons_zero]
              intro he
              exact hx (Option.some.inj he)
          | succ j =>
              have := ihh.2.2 j (by omega)
              simpa using this

/-- Every listed pair of `pairCounts` is a non-null co-occurring pair with
its count. -/
theorem mem_pairCounts (xs ys : List Val) (q : (Val × Val) × Nat)
    (h : q ∈ pairCounts xs ys) :
    q.1 ∈ ctPairs xs ys ∧ q.2 = (ctPairs xs ys).count q.1 := by
  unfold pairCounts at h
  rcases List.mem_map.mp h with ⟨k, hk, rfl⟩
  have hk2 := (mem_uniqueFirst _ k).mp ((mem_sortBy _ _ k).mp hk)
  exact ⟨hk2, rfl⟩

/-- The components of a crosstab pair come from the two columns. -/
theorem mem_ctPairs (xs ys : List Val) (p : Val × Val)
    (h : p ∈ ctPairs xs ys) : p.1 ∈ xs ∧ p.2 ∈ ys := by
  unfold ctPairs at h
  have hz := (List.mem_filter.mp h).1
  rcases p with ⟨a, b⟩
  exact List.of_mem_zip hz

/-- C1 (amended): when `create_sankey_data` returns a graph, its node list
is the concatenation of three per-stage segments — each a duplicate-free
enumeration of exactly the distinct values of its staged column (road
type, then weather, then severity), with NO deduplication across stages;
the three edge arrays are parallel; every edge weight meets the fixed
minimum threshold 100; the edge list splits into a stage1→stage2 part and
a stage2→stage3 part (edges exist only between adjacent stages), each edge
carrying the co-occurrence count of a pair of labels of those stages and
the `list.index` positions of its two labels; and every edge endpoint
index is the position of the FIRST occurrence of its label in the
concatenated node list — NOT necessarily a node of the edge's own stage:
when a label (such as the catch-all "Other") also appears in an earlier
stage, the earlier stage's node is referenced (see the counterexample). -/
theorem create_sankey_data_spec (df : DataFrame) (S : Sankey)
    (hS : create_sankey_data df = some S) :
    (∃ ns1 ns2 ns3 : List Val,
      S.nodes = ns1 ++ ns2 ++ ns3 ∧
      ns1.Nodup ∧ ns2.Nodup ∧ ns3.Nodup ∧
      (∀ x, x ∈ ns1 ↔ x ∈ sankeyRoad df) ∧
      (∀ x, x ∈ ns2 ↔ x ∈ sankeyWeather df) ∧
      (∀ x, x ∈ ns3 ↔ x ∈ sankeySev df)) ∧
    (S.sources.length = S.values.length ∧
      S.targets.length = S.values.length) ∧
    (∀ v ∈ S.values, 100 ≤ v) ∧
    (∃ E1 E2 : List (Nat × Nat × Nat),
      S.sources.zip (S.targets.zip S.values) = E1 ++ E2 ∧
      (∀ e ∈ E1, ∃ a b : Val,
        ((a, b), e.2.2) ∈ pairCounts (sankeyRoad df) (sankeyWeather df) ∧
        100 ≤ e.2.2 ∧
        e.1 = S.nodes.indexOf a ∧ e.2.1 = S.nodes.indexOf b) ∧
      (∀ e ∈ E2, ∃ a b : Val,
        ((a, b), e.2.2) ∈ pairCounts (sankeyWeather df) (sankeySev df) ∧
        100 ≤ e.2.2 ∧
        e.1 = S.nodes.indexOf a ∧ e.2.1 = S.nodes.indexOf b)) ∧
    (∀ e ∈ S.sources.zip (S.targets.zip S.values),
      (e.1 < S.nodes.length ∧
        ∀ j, j < e.1 → S.nodes[j]? ≠ S.nodes[e.1]?) ∧
      (e.2.1 < S.nodes.length ∧
        ∀ j, j < e.2.1 → S.nodes[j]? ≠ S.nodes[e.2.1]?)) := by
  unfold create_sankey_data at hS
  by_cases hcond : (["road_type", "weather_conditions", "severity"].all
      (fun c => df.columns.contains c)) = true
  case neg =>
    rw [if_neg hcond] at hS
    exact absurd hS (by simp)
  case pos =>
  rw [if_pos hcond] at hS
  have hSe := Option.some.inj hS
  subst hSe
  have hzip : (((sankeyRW df).map
        (fun p => (sankeyNodes df).indexOf p.1.1) ++
      (sankeyWS df).map (fun p => (sankeyNodes df).indexOf p.1.1)).zip
        ((((sankeyRW df).map (fun p => (sankeyNodes df).indexOf p.1.2) ++
          (sankeyWS df).map (fun p => (sankeyNodes df).indexOf p.1.2))).zip
          ((sankeyRW df).map (fun p => p.2) ++
            (sankeyWS df).map (fun p => p.2)))) =
      (sankeyRW df).map (fun p => ((sankeyNodes df).indexOf p.1.1,
        ((sankeyNodes df).indexOf p.1.2, p.2))) ++
      (sankeyWS df).map (fun p => ((sankeyNodes df).indexOf p.1.1,
        ((sankeyNodes df).indexOf p.1.2, p.2))) := by
    rw [List.zip_append (by simp), List.zip_map', List.zip_map',
      List.zip_append (by simp [List.length_zip]), List.zip_map',
      List.zip_map']
  have hmemE : ∀ e, (e ∈ (sankeyRW df).map
        (fun p => ((sankeyNodes df).indexOf p.1.1,
          ((sankeyNodes df).indexOf p.1.2, p.2))) →
      ∃ a b : Val,
        ((a, b), e.2.2) ∈ pairCounts (sankeyRoad df) (sankeyWeather df) ∧
        100 ≤ e.2.2 ∧
        e.1 = (sankeyNodes df).indexOf a ∧
        e.2.1 = (sankeyNodes df).indexOf b) := by
    intro e he
    rcases List.mem_map.mp he with ⟨p, hp, rfl⟩
    rcases p with ⟨⟨a, b⟩, c⟩
    have hp2 := List.mem_filter.mp hp
    exact ⟨a, b, by simpa using hp2.1, by simpa using hp2.2, rfl, rfl⟩
  have hmemE2 : ∀ e, (e ∈ (sankeyWS df).map
        (fun p => ((sankeyNodes df).indexOf p.1.1,
          ((sankeyNodes df).indexOf p.1.2, p.2))) →
      ∃ a b : Val,
        ((a, b), e.2.2) ∈ pairCounts (sankeyWeather df) (sankeySev df) ∧
        100 ≤ e.2.2 ∧
        e.1 = (sankeyNodes df).indexOf a ∧
        e.2.1 = (sankeyNodes df).indexOf b) := by
    intro e he
    rcases List.mem_map.mp he with ⟨p, hp, rfl⟩
    rcases p with ⟨⟨a, b⟩, c⟩
    have hp2 := List.mem_filter.mp hp
    exact ⟨a, b, by simpa using hp2.1, by simpa using hp2.2, rfl, rfl⟩
  refine ⟨?_, ?_, ?_, ?_, ?_⟩
  · refine ⟨uniqueFirst (sankeyRoad df), uniqueFirst (sankeyWeather df),
      uniqueFirst (sankeySev df), rfl, nodup_uniqueFirst _,
      nodup_uniqueFirst _, nodup_uniqueFirst _,
      fun x => mem_uniqueFirst _ x, fun x => mem_uniqueFirst _ x,
      fun x => mem_uniqueFirst _ x⟩
  · constructor <;> simp
  · intro v hv
    rcases List.mem_append.mp hv with hv | hv <;>
      rcases List.mem_map.mp hv with ⟨p, hp, rfl⟩ <;>
      simpa using (List.mem_filter.mp hp).2
  · exact ⟨_, _, hzip, fun e he => hmemE e he, fun e he => hmemE2 e he⟩
  · intro e he
    rw [hzip] at he
    have hends : ∃ a b : Val, a ∈ sankeyNodes df ∧ b ∈ sankeyNodes df ∧
        e.1 = (sankeyNodes df).indexOf a ∧
        e.2.1 = (sankeyNodes df).indexOf b := by
      rcases List.mem_append.mp he with he1 | he1
      · rcases hmemE e he1 with ⟨a, b, hab, _, h1, h2⟩
        have hct := (mem_pairCounts _ _ _ hab).1
        have hmm := mem_ctPairs _ _ _ hct
        refine ⟨a, b, ?_, ?_, h1, h2⟩
        · unfold sankeyNodes
          exact List.mem_append.mpr (Or.inl (List.mem_append.mpr
            (Or.inl ((mem_uniqueFirst _ a).mpr hmm.1))))
        · unfold sankeyNodes
          exact List.mem_append.mpr (Or.inl (List.mem_append.mpr
            (Or.inr ((mem_uniqueFirst _ b).mpr hmm.2))))
      · rcases hmemE2 e he1 with ⟨a, b, hab, _, h1, h2⟩
        have hct := (mem_pairCounts _ _ _ hab).1
        have hmm := mem_ctPairs _ _ _ hct
        refine ⟨a, b, ?_, ?_, h1, h2⟩
        · unfold sankeyNodes
          exact List.mem_append.mpr (Or.inl (List.mem_append.mpr
            (Or.inr ((mem_uniqueFirst _ a).mpr hmm.1))))
        · unfold sankeyNodes
          exact List.mem_append.mpr (Or.inr ((mem_uniqueFirst _ b).mpr hmm.2))
    rcases hends with ⟨a, b, ha, hb, h1, h2⟩
    have hsa := indexOf_spec (sankeyNodes df) a ha
    have hsb := indexOf_spec (sankeyNodes df) b hb
    constructor
    · rw [h1]
      refine ⟨hsa.1, fun j hj => ?_⟩
      rw [hsa.2.1]
      exact hsa.2.2 j hj
    · rw [h2]
      refine ⟨hsb.1, fun j hj => ?_⟩
      rw [hsb.2.1]
      exact hsb.2.2 j hj

set_option maxRecDepth 10000 in
/-- Witness for C1 at the 100-row frame `dfSankey`: the graph is produced
and its three edge arrays are parallel (two edges each). -/
theorem create_sankey_data_spec_witness :
    ((⟨[Val.str "Other", Val.str "Other", Val.str "Slight"],
        [0, 0], [0, 2], [100, 100]⟩ : Sankey).sources.length =
      (⟨[Val.str "Other", Val.str "Other", Val.str "Slight"],
        [0, 0], [0, 2], [100, 100]⟩ : Sankey).values.length) ∧
    ((⟨[Val.str "Other", Val.str "Other", Val.str "Slight"],
        [0, 0], [0, 2], [100, 100]⟩ : Sankey).targets.length =
      (⟨[Val.str "Other", Val.str "Other", Val.str "Slight"],
        [0, 0], [0, 2], [100, 100]⟩ : Sankey).values.length) :=
  (create_sankey_data_spec dfSankey
    ⟨[Val.str "Other", Val.str "Other", Val.str "Slight"],
      [0, 0], [0, 2], [100, 100]⟩ (by decide)).2.1

set_option maxRecDepth 10000 in
/-- C1 counterexample: in `dfSankey` both rare stage columns collapse to
"Other", so the node list is ["Other", "Other", "Slight"] — the stage-2
(weather) segment is exactly position 1.  The first edge is the
stage1→stage2 flow "Other"→"Other", but its target index is 0, the
position of the stage-1 copy of "Other" (`list.index` returns the first
occurrence), not the stage-2 node at position 1: an edge's target does NOT
refer to the node of its own stage by position. -/
theorem create_sankey_data_cex :
    create_sankey_data dfSankey =
      some ⟨[Val.str "Other", Val.str "Other", Val.str "Slight"],
        [0, 0], [0, 2], [100, 100]⟩ ∧
    (uniqueFirst (sankeyRoad dfSankey)).length = 1 ∧
    ¬ ((1 : Nat) ≤ 0) := by
  refine ⟨by decide, by decide, by decide⟩

end GB
